import Mathlib

/-!
Shallow embedding of the TUF "repository playground" metadata engine.

The definitions below translate, function by function, the two repository
implementations of the source tree:

* `Playground` embeds `playground/repo/playground/_playground_repository.py`
  (class `PlaygroundRepository`), the online repository used by automation.
* `Signer` embeds `playground/signer/playground_sign/_signer_repository.py`
  (class `SignerRepository`), the repository used by the signing tool.

Filesystem directories are modelled as association lists from role name to
`Metadata` (a key is present exactly when the role's JSON file exists).
Python `datetime` values and `timedelta(days=n)` are both modelled as
integers measured in days, which preserves every comparison and addition
the source performs.  Cryptography is abstracted by a `Crypto` record: a
signature is produced by `Crypto.sign uri key payload` (the URI names the
signer, exactly as `Signer.from_priv_key_uri(uri, key)` does) and checked
by `Crypto.verify key payload sig`; canonical serialisation is injective,
so verifying against the `Signed` value itself is faithful.
Python exceptions become `Except Err`.
-/

namespace TufPlayground

/-- Python `dict` lookup (`d[k]` / `d.get(k)`): first matching key. -/
def dictGet [BEq κ] (k : κ) : List (κ × α) → Option α
  | [] => none
  | (k', v) :: rest => if k' == k then some v else dictGet k rest

/-- Python `dict` assignment `d[k] = v`: replace in place or append. -/
def dictInsert [BEq κ] (k : κ) (v : α) : List (κ × α) → List (κ × α)
  | [] => [(k, v)]
  | (k', v') :: rest =>
    if k' == k then (k, v) :: rest else (k', v') :: dictInsert k v rest

/-- Python `set.add`: insert if not already a member (order immaterial). -/
def addSet (l : List String) (x : String) : List String :=
  if x ∈ l then l else l ++ [x]

/-- Python `set.update`: add every element. -/
def addSetAll (l : List String) (xs : List String) : List String :=
  xs.foldl addSet l

/-- A TUF signature entry (`securesystemslib.signer.Signature`). -/
structure Signature where
  keyid : String
  sig : String
deriving Repr, DecidableEq

/-- A TUF key descriptor with the custom fields the source reads.
`keyowner` is `unrecognized_fields["x-playground-keyowner"]`,
`onlineUri` is `unrecognized_fields["x-playground-online-uri"]`;
`none` models the field being absent (access raises `KeyError`). -/
structure Key where
  keyid : String
  keytype : String
  keyowner : Option String
  onlineUri : Option String
deriving Repr, DecidableEq

/-- A delegation entry (`Role` in root / `DelegatedRole` in targets),
with the custom period fields root stores on its online role entries. -/
structure RoleInfo where
  keyids : List String
  threshold : Nat
  expiryPeriod : Option Int
  signingPeriod : Option Int
deriving Repr, DecidableEq

/-- The custom fields read from a signed payload's `unrecognized_fields`:
`x-playground-expiry-period` and `x-playground-signing-period`. -/
structure CustomFields where
  expiryPeriod : Option Int
  signingPeriod : Option Int
deriving Repr, DecidableEq

/-- The `delegations` block of a targets payload. -/
structure Delegations where
  keys : List (String × Key)
  roles : List (String × RoleInfo)
deriving Repr, DecidableEq

/-- Role-specific payload: the four `Signed` variants of python-tuf that the
source manipulates. -/
inductive SignedKind where
  /-- Root payload: `roles` map and `keys` map. -/
  | root (roles : List (String × RoleInfo)) (keys : List (String × Key))
  /-- Targets payload with optional `delegations`. -/
  | targets (delegations : Option Delegations)
  /-- Snapshot payload: `meta` as filename to version. -/
  | snapshot (meta : List (String × Int))
  /-- Timestamp payload: the single snapshot version entry. -/
  | timestamp (snapshotVersion : Int)
deriving Repr, DecidableEq

/-- A signed payload: the common `Signed` fields plus the variant. -/
structure Signed where
  version : Int
  expires : Int
  fields : CustomFields
  kind : SignedKind
deriving Repr, DecidableEq

/-- A metadata envelope: signatures dict (keyid to signature) and payload. -/
structure Metadata where
  signed : Signed
  signatures : List (String × Signature)
deriving Repr, DecidableEq

/-- Python exceptions surfaced by the embedded code. -/
inductive Err where
  | valueError (msg : String)
  | keyError (msg : String)
  | unsignedMetadata (msg : String)
deriving Repr, DecidableEq

/-- Abstract cryptography: `sign uri key payload` is the signature value
produced by the signer constructed from `uri` for `key`; `verify key
payload sig` is `key.verify_signature` over the canonical payload. -/
structure Crypto where
  sign : String → Key → Signed → String
  verify : Key → Signed → String → Bool

/-- `Root.get_delegated_role` / `Targets.get_delegated_role`:
`none` models the `ValueError` both raise for an unknown role (and the
`TypeError` of other payload kinds). -/
def getDelegatedRole (s : Signed) (rolename : String) : Option RoleInfo :=
  match s.kind with
  | .root roles _ => dictGet rolename roles
  | .targets (some d) => dictGet rolename d.roles
  | _ => none

/-- `Root.get_key` / `Targets.get_key`: look the keyid up in the
delegator's key dict; `none` models the `ValueError` for a missing key. -/
def getKey (s : Signed) (keyid : String) : Option Key :=
  match s.kind with
  | .root _ keys => dictGet keyid keys
  | .targets (some d) => dictGet keyid d.keys
  | _ => none

/-- `Metadata.verify_delegate(rolename, md)` of python-tuf: count the
distinct keyids listed by the delegator for `rolename` whose key exists
and whose signature on `md` verifies over the canonical payload; raise
`UnsignedMetadataError` when the count is below the threshold. -/
def verifyDelegate (c : Crypto) (delegator : Signed) (rolename : String)
    (md : Metadata) : Except Err Unit :=
  match getDelegatedRole delegator rolename with
  | none => .error (.valueError ("no delegation found for " ++ rolename))
  | some r =>
    let verifiedCount := (r.keyids.eraseDups.filter (fun kid =>
      match getKey delegator kid, dictGet kid md.signatures with
      | some k, some sg => c.verify k md.signed sg.sig
      | _, _ => false)).length
    if verifiedCount ≥ r.threshold then .ok ()
    else .error (.unsignedMetadata (rolename ++ " was signed by fewer keys than threshold"))

/-- `SigningStatus` dataclass of the online repository. -/
structure SigningStatus where
  invites : List String
  signed : List String
  missing : List String
  threshold : Nat
  valid : Bool
  message : Option String
deriving Repr, DecidableEq

/-- `SigningEventState.invited_signers_for_role`: every invited signer
whose invitation list contains the role. -/
def invitedSignersForRole (invites : List (String × List String))
    (rolename : String) : List String :=
  (invites.filter (fun p => rolename ∈ p.2)).map (·.1)


namespace Playground

/-- State of a `PlaygroundRepository`: the metadata directory, the optional
known-good directory (`prev_dir`), and the invites of the
`.signing-event-state` file loaded at construction. -/
structure St where
  dir : List (String × Metadata)
  prevDir : Option (List (String × Metadata))
  invites : List (String × List String)
deriving Repr, DecidableEq

/-- `PlaygroundRepository.open`: parse the role's file, or create a fresh
version-0 snapshot/timestamp payload when the file is absent (`meta`
cleared resp. `snapshot_meta.version = 0`, per the source's workaround);
any other absent role raises `ValueError`. -/
def openRole (s : St) (role : String) : Except Err Metadata :=
  match dictGet role s.dir with
  | some md => .ok md
  | none =>
    if role == "timestamp" then
      .ok ⟨⟨0, 0, ⟨none, none⟩, .timestamp 0⟩, []⟩
    else if role == "snapshot" then
      .ok ⟨⟨0, 0, ⟨none, none⟩, .snapshot []⟩, []⟩
    else
      .error (.valueError ("Cannot create new " ++ role ++ " metadata"))

/-- `Repository.root()` of python-tuf: `open("root").signed`. -/
def rootSigned (s : St) : Except Err Signed :=
  (openRole s "root").map (·.signed)

/-- `Repository.targets(rolename)` of python-tuf: `open(rolename).signed`. -/
def targetsSigned (s : St) (rolename : String) : Except Err Signed :=
  (openRole s rolename).map (·.signed)

/-- `PlaygroundRepository._get_keys`: pick the delegator (root for the four
top-level roles, targets otherwise), look up the delegation, and return
the keys of its keyids, silently skipping keyids without a descriptor
(the source catches `get_key`'s `ValueError` and passes). -/
def getKeys (s : St) (role : String) : Except Err (List Key) :=
  let delegatorE :=
    if role == "root" || role == "timestamp" || role == "snapshot" || role == "targets" then
      rootSigned s
    else
      targetsSigned s "targets"
  match delegatorE with
  | .error e => .error e
  | .ok delegator =>
    match getDelegatedRole delegator role with
    | none => .error (.valueError ("no delegation found for " ++ role))
    | some r => .ok (r.keyids.filterMap (getKey delegator))

/-- `PlaygroundRepository.signing_expiry_period`: for the online roles read
`x-playground-expiry-period` / `x-playground-signing-period` off root's
role entry, otherwise off the role's own signed payload (root itself or
the targets role); a missing signing period defaults to half the expiry
period (Python floor division). -/
def signingExpiryPeriod (s : St) (rolename : String) : Except Err (Int × Int) :=
  let periodsE : Except Err (Int × Option Int) :=
    if rolename == "timestamp" || rolename == "snapshot" then
      match rootSigned s with
      | .error e => .error e
      | .ok root =>
        match getDelegatedRole root rolename with
        | none => .error (.valueError ("no delegation found for " ++ rolename))
        | some role =>
          match role.expiryPeriod with
          | none => .error (.keyError "x-playground-expiry-period")
          | some e => .ok (e, role.signingPeriod)
    else
      match (if rolename == "root" then rootSigned s else targetsSigned s rolename) with
      | .error e => .error e
      | .ok signed =>
        match signed.fields.expiryPeriod with
        | none => .error (.keyError "x-playground-expiry-period")
        | some e => .ok (e, signed.fields.signingPeriod)
  match periodsE with
  | .error e => .error e
  | .ok (expiryDays, signingOpt) =>
    .ok (signingOpt.getD (Int.fdiv expiryDays 2), expiryDays)

/-- The signature `close` produces for one key: online roles are signed by
the signer named by the key's `x-playground-online-uri` (absent URI raises
`KeyError`); offline roles get an empty placeholder signature. -/
def closeSig (c : Crypto) (rolename : String) (payload : Signed) (k : Key) :
    Except Err Signature :=
  if rolename == "timestamp" || rolename == "snapshot" then
    match k.onlineUri with
    | none => .error (.keyError "x-playground-online-uri")
    | some uri => .ok ⟨k.keyid, c.sign uri k payload⟩
  else
    .ok ⟨k.keyid, ""⟩

/-- The `for key in self._get_keys(rolename)` signing loop of
`PlaygroundRepository.close`: one signature dict entry per key. -/
def buildSigs (c : Crypto) (rolename : String) (payload : Signed) :
    List Key → List (String × Signature) → Except Err (List (String × Signature))
  | [], sigs => .ok sigs
  | k :: rest, sigs =>
    match closeSig c rolename payload k with
    | .error e => .error e
    | .ok sg => buildSigs c rolename payload rest (dictInsert k.keyid sg sigs)

/-- The metadata `PlaygroundRepository.close` is about to write: version
bumped by one, expiry set to now plus the expiry period, signatures
cleared and rebuilt for every key `_get_keys` returns. -/
def prepareClose (c : Crypto) (s : St) (now : Int) (rolename : String)
    (md : Metadata) : Except Err Metadata :=
  match signingExpiryPeriod s rolename with
  | .error e => .error e
  | .ok (_, expiryDays) =>
    match getKeys s rolename with
    | .error e => .error e
    | .ok keys =>
      match buildSigs c rolename
          { md.signed with version := md.signed.version + 1, expires := now + expiryDays }
          keys [] with
      | .error e => .error e
      | .ok sigs =>
        .ok ⟨{ md.signed with version := md.signed.version + 1, expires := now + expiryDays },
          sigs⟩

/-- `PlaygroundRepository.close`: build the new metadata, and for the online
roles verify it against root (`verify_delegate`) before writing — the
repository should never write unsigned online roles; only on success is
the role's file replaced. -/
def close (c : Crypto) (s : St) (now : Int) (rolename : String) (md : Metadata) :
    Except Err (St × Metadata) :=
  match prepareClose c s now rolename md with
  | .error e => .error e
  | .ok md' =>
    if rolename == "timestamp" || rolename == "snapshot" then
      match openRole s "root" with
      | .error e => .error e
      | .ok rootMd =>
        match verifyDelegate c rootMd.signed rolename md' with
        | .error e => .error e
        | .ok _ => .ok ({ s with dir := dictInsert rolename md' s.dir }, md')
    else .ok ({ s with dir := dictInsert rolename md' s.dir }, md')

/-- `PlaygroundRepository.open_prev`: known-good metadata if it exists
(a `None` previous directory yields no file). -/
def openPrev (s : St) (role : String) : Option Metadata :=
  match s.prevDir with
  | none => none
  | some d => dictGet role d

/-- The guard `prev_md and md.signed.version <= prev_md.signed.version`
of `_validate_role`. -/
def versionRegressed (md : Metadata) : Option Metadata → Bool
  | some prevMd => md.signed.version ≤ prevMd.signed.version
  | none => false

/-- `PlaygroundRepository._validate_role`: version must exceed the
known-good version, expiry must not be further ahead than the configured
expiry period, and the delegator must accept the metadata; each failure
returns `(False, message)` rather than raising (the delegation check's
bare `except` yields no message). -/
def validateRole (c : Crypto) (s : St) (now : Int) (delegator : Metadata)
    (rolename : String) : Except Err (Bool × Option String) :=
  match openRole s rolename with
  | .error e => .error e
  | .ok md =>
    if versionRegressed md (openPrev s rolename) then
      .ok (false, some ("Version " ++ toString md.signed.version ++ " is not valid for " ++ rolename))
    else
      match md.signed.fields.expiryPeriod with
      | none => .error (.keyError "x-playground-expiry-period")
      | some days =>
        if md.signed.expires > now + days then
          .ok (false, some ("Expiry date is further than expected " ++ toString days ++ " days ahead"))
        else
          match verifyDelegate c delegator.signed rolename md with
          | .error _ => .ok (false, none)
          | .ok _ => .ok (true, none)

/-- The signer loop of `_get_signing_status`: each key's owner
(`x-playground-keyowner`, read outside the `try`, so its absence raises)
lands in `signed` when its signature verifies and in `missing` when the
signature is absent (`KeyError`) or invalid (`UnverifiedSignatureError`). -/
def collectSigners (c : Crypto) (md : Metadata) :
    List Key → List String × List String → Except Err (List String × List String)
  | [], acc => .ok acc
  | k :: rest, (sigs, missing) =>
    match k.keyowner with
    | none => .error (.keyError "x-playground-keyowner")
    | some owner =>
      match dictGet k.keyid md.signatures with
      | some sg =>
        if c.verify k md.signed sg.sig then
          collectSigners c md rest (addSet sigs owner, missing)
        else
          collectSigners c md rest (sigs, addSet missing owner)
      | none => collectSigners c md rest (sigs, addSet missing owner)

/-- The delegation names whose invites count for a role: `["root",
"targets"]` for root, the delegated role names for targets, else none. -/
def delegationNames (rolename : String) (md : Metadata) : List String :=
  if rolename == "root" then ["root", "targets"]
  else if rolename == "targets" then
    match md.signed.kind with
    | .targets (some d) => d.roles.map (·.1)
    | _ => []
  else []

/-- `PlaygroundRepository._get_signing_status`: collect invites for the
role's delegations, split the delegator's keys into signed/missing
owners, and double-check validity via `_validate_role`. -/
def getSigningStatus (c : Crypto) (s : St) (now : Int) (delegator : Metadata)
    (rolename : String) : Except Err SigningStatus :=
  match openRole s rolename with
  | .error e => .error e
  | .ok md =>
    let invites := (delegationNames rolename md).foldl
      (fun acc n => addSetAll acc (invitedSignersForRole s.invites n)) []
    match getDelegatedRole delegator.signed rolename with
    | none => .error (.valueError ("no delegation found for " ++ rolename))
    | some role =>
      match getKeys s rolename with
      | .error e => .error e
      | .ok keys =>
        match collectSigners c md keys ([], []) with
        | .error e => .error e
        | .ok (sigs, missing) =>
          match validateRole c s now delegator rolename with
          | .error e => .error e
          | .ok (valid, msg) =>
            .ok ⟨invites, sigs, missing, role.threshold, valid, msg⟩

/-- The previous-root branch of `PlaygroundRepository.status`: when the
role is root and a known-good root exists, its signing status with the
previous root as delegator. -/
def prevStatus (c : Crypto) (s : St) (now : Int) (rolename : String) :
    Except Err (Option SigningStatus) :=
  if rolename == "root" then
    match openPrev s rolename with
    | some p =>
      match getSigningStatus c s now p rolename with
      | .error e => .error e
      | .ok st => .ok (some st)
    | none => .ok none
  else .ok none

/-- `PlaygroundRepository.status`: not supported for the online roles; for
root, when a known-good root exists, an additional status is computed with
the previous root as delegator; root and targets use current root as
delegator, other roles use targets. -/
def status (c : Crypto) (s : St) (now : Int) (rolename : String) :
    Except Err (SigningStatus × Option SigningStatus) :=
  if rolename == "timestamp" || rolename == "snapshot" then
    .error (.valueError "Not supported for online metadata")
  else
    match prevStatus c s now rolename with
    | .error e => .error e
    | .ok prev =>
      match (if rolename == "root" || rolename == "targets" then openRole s "root"
             else openRole s "targets") with
      | .error e => .error e
      | .ok delegator =>
        match getSigningStatus c s now delegator rolename with
        | .error e => .error e
        | .ok st => .ok (st, prev)

/-- `PlaygroundRepository.bump_expiring`, with `Repository.edit`'s contract
inlined (`edit` opens the role, runs the body and closes unless `AbortEdit`
is raised): abort — returning `None` and writing nothing — when now plus
the signing period is still before the current expiry, otherwise close
(which bumps the version) and return the new version. -/
def bumpExpiring (c : Crypto) (s : St) (now : Int) (rolename : String) :
    Except Err (St × Option Int) :=
  match openRole s rolename with
  | .error e => .error e
  | .ok md =>
    match signingExpiryPeriod s rolename with
    | .error e => .error e
    | .ok (signingDays, _) =>
      if now + signingDays < md.signed.expires then
        .ok (s, none)
      else
        match close c s now rolename md with
        | .error e => .error e
        | .ok (s', md') => .ok (s', some md'.signed.version)

end Playground

namespace Signer

/-- State of a `SignerRepository`: metadata directory, `root_history`
archive, known-good directory (`prev_dir`), invites of the
`.signing-event-state` file, and the current user. -/
structure St where
  dir : List (String × Metadata)
  rootHistory : List (Int × Metadata)
  prevDir : List (String × Metadata)
  invites : List (String × List String)
  userName : String
deriving Repr, DecidableEq

/-- The default roles dict of a fresh python-tuf `Root()`: every top-level
role with no keyids and threshold 1. -/
def rootDefaultRoles : List (String × RoleInfo) :=
  [("root", ⟨[], 1, none, none⟩), ("timestamp", ⟨[], 1, none, none⟩),
   ("snapshot", ⟨[], 1, none, none⟩), ("targets", ⟨[], 1, none, none⟩)]

/-- `SignerRepository.open`: parse the role's file; when absent, raise for
snapshot/timestamp, otherwise create a fresh `Root()` or `Targets()`
skeleton (python-tuf defaults: version 1; the default expiry timestamp is
never observed by the embedded operations and is modelled as 0) with both
custom period fields set to 0. -/
def openRole (s : St) (role : String) : Except Err Metadata :=
  match dictGet role s.dir with
  | some md => .ok md
  | none =>
    if role == "snapshot" || role == "timestamp" then
      .error (.valueError ("Cannot create " ++ role))
    else if role == "root" then
      .ok ⟨⟨1, 0, ⟨some 0, some 0⟩, .root rootDefaultRoles []⟩, []⟩
    else
      .ok ⟨⟨1, 0, ⟨some 0, some 0⟩, .targets none⟩, []⟩

/-- `Repository.root()` of python-tuf: `open("root").signed`. -/
def rootSigned (s : St) : Except Err Signed :=
  (openRole s "root").map (·.signed)

/-- `Repository.targets(rolename)` of python-tuf: `open(rolename).signed`. -/
def targetsSigned (s : St) (rolename : String) : Except Err Signed :=
  (openRole s rolename).map (·.signed)

/-- `SignerRepository._prev_version`: the version in the known-good
directory, or 0 when the role has no known-good file. -/
def prevVersion (s : St) (rolename : String) : Int :=
  match dictGet rolename s.prevDir with
  | some md => md.signed.version
  | none => 0

/-- `SignerRepository._get_keys`: identical shape to the online
repository's — delegator keys for the role, unknown keyids skipped. -/
def getKeys (s : St) (role : String) : Except Err (List Key) :=
  let delegatorE :=
    if role == "root" || role == "timestamp" || role == "snapshot" || role == "targets" then
      rootSigned s
    else
      targetsSigned s "targets"
  match delegatorE with
  | .error e => .error e
  | .ok delegator =>
    match getDelegatedRole delegator role with
    | none => .error (.valueError ("no delegation found for " ++ role))
    | some r => .ok (r.keyids.filterMap (getKey delegator))

/-- The signer URI `SignerRepository._sign` constructs for a key (the
sigstore workaround, else an HSM signer). -/
def signerUri (k : Key) : String :=
  if k.keytype == "sigstore-oidc" then "sigstore:?ambient=false" else "hsm:"

/-- `SignerRepository._sign`: sign the canonical payload with the user's
key and store the signature under its keyid (`md.sign(signer, True)`). -/
def signMd (c : Crypto) (md : Metadata) (k : Key) : Metadata :=
  { md with signatures :=
      dictInsert k.keyid ⟨k.keyid, c.sign (signerUri k) k md.signed⟩ md.signatures }

/-- `SignerRepository._write`: store the file, and for root also archive
the versioned copy under `root_history`. -/
def write (s : St) (role : String) (md : Metadata) : St :=
  { s with
rootHistory :=
      if role == "root" then dictInsert md.signed.version md s.rootHistory
      else s.rootHistory,
dir := dictInsert role md s.dir }

/-- `SignerRepository._get_delegated_rolenames`. -/
def getDelegatedRolenames (md : Metadata) : List String :=
  match md.signed.kind with
  | .root roles _ => roles.map (·.1)
  | .targets (some d) => d.roles.map (·.1)
  | _ => []

/-- The `open_invites` computation of `SignerRepository.close`: whether any
pending invitation names a delegation of this metadata. -/
def openInvites (invites : List (String × List String)) (md : Metadata) : Bool :=
  let delegated := getDelegatedRolenames md
  invites.any (fun p => p.2.any (fun r => r ∈ delegated))

/-- The signing loop of `SignerRepository.close`: the user's own key signs
(unless open invites demand a placeholder), every other key gets an empty
placeholder signature; a key without `x-playground-keyowner` raises. -/
def closeSigs (c : Crypto) (user : String) (withInvites : Bool) :
    List Key → Metadata → Except Err Metadata
  | [], md => .ok md
  | k :: rest, md =>
    match k.keyowner with
    | none => .error (.keyError "x-playground-keyowner")
    | some owner =>
      if owner == user && withInvites then
        closeSigs c user withInvites rest
          { md with signatures := dictInsert k.keyid ⟨k.keyid, ""⟩ md.signatures }
      else if owner == user then
        closeSigs c user withInvites rest (signMd c md k)
      else
        closeSigs c user withInvites rest
          { md with signatures := dictInsert k.keyid ⟨k.keyid, ""⟩ md.signatures }

/-- `SignerRepository.close`: force the version to the known-good version
plus one (a single bump per signing event), set expiry from the payload's
own expiry period, clear signatures, run the signing loop, and write. -/
def close (c : Crypto) (s : St) (now : Int) (role : String) (md : Metadata) :
    Except Err St :=
  match md.signed.fields.expiryPeriod with
  | none => .error (.keyError "x-playground-expiry-period")
  | some days =>
    let md' : Metadata :=
      ⟨{ md.signed with version := prevVersion s role + 1, expires := now + days }, []⟩
    match getKeys s role with
    | .error e => .error e
    | .ok keys =>
      match closeSigs c s.userName (openInvites s.invites md') keys md' with
      | .error e => .error e
      | .ok md'' => .ok (write s role md'')

/-- One `edit(role)` scope of python-tuf's `Repository.edit` with a
callback `f` on the signed payload, committed by `SignerRepository.close`. -/
def editClose (c : Crypto) (s : St) (now : Int) (role : String)
    (f : Signed → Signed) : Except Err St :=
  match openRole s role with
  | .error e => .error e
  | .ok md => close c s now role { md with signed := f md.signed }

/-- A sequence of `edit(role)` scopes within one signing event. -/
def editCloseMany (c : Crypto) (now : Int) (role : String) :
    St → List (Signed → Signed) → Except Err St
  | s, [] => .ok s
  | s, f :: fs =>
    match editClose c s now role f with
    | .error e => .error e
    | .ok s' => editCloseMany c now role s' fs

/-- The key-scanning loop of `SignerRepository.sign`: the first key owned
by the current user signs and the file is written; when no key matches the
loop falls through to `assert("...")` — a Python assert on a non-empty
string, which never fails — so the call returns with no error and no
write. -/
def signLoop (c : Crypto) (s : St) (role : String) (md : Metadata) :
    List Key → Except Err St
  | [] => .ok s
  | k :: rest =>
    match k.keyowner with
    | none => .error (.keyError "x-playground-keyowner")
    | some owner =>
      if owner == s.userName then
        .ok (write s role (signMd c md k))
      else
        signLoop c s role md rest

/-- `SignerRepository.sign`: sign the current payload without changes. -/
def sign (c : Crypto) (s : St) (role : String) : Except Err St :=
  match openRole s role with
  | .error e => .error e
  | .ok md =>
    match getKeys s role with
    | .error e => .error e
    | .ok keys => signLoop c s role md keys

end Signer

/-! ## Concrete fixtures used by the witnesses -/

namespace Fixtures

/-- A crypto backend whose signatures always verify. -/
def cryptoOk : Crypto := ⟨fun _ _ _ => "goodsig", fun _ _ sg => sg == "goodsig"⟩

/-- A crypto backend that rejects every signature. -/
def cryptoBad : Crypto := ⟨fun _ _ _ => "badsig", fun _ _ _ => false⟩

/-- An offline key owned by `@alice`. -/
def keyAlice : Key := ⟨"kidA", "ed25519", some "@alice", none⟩

/-- An offline key owned by `@bob`. -/
def keyBob : Key := ⟨"kidB", "ed25519", some "@bob", none⟩

/-- An online key with an HSM URI. -/
def keyOnline : Key := ⟨"kidO", "ed25519", some "@online", some "hsm:"⟩

/-- A root payload delegating root to `@alice`'s key and the online roles
to the online key, with a targets delegation to `@alice` as well. -/
def rootPayload : Signed :=
  ⟨5, 100, ⟨some 10, some 5⟩,
    .root
      [("root", ⟨["kidA"], 1, none, none⟩),
       ("timestamp", ⟨["kidO"], 1, some 2, some 1⟩),
       ("snapshot", ⟨["kidO"], 1, some 2, none⟩),
       ("targets", ⟨["kidA"], 1, none, none⟩)]
      [("kidA", keyAlice), ("kidO", keyOnline)]⟩

/-- Root metadata carrying `rootPayload`, unsigned. -/
def rootMd : Metadata := ⟨rootPayload, []⟩

/-- A previous (baseline) root at version 5. -/
def prevRootMd : Metadata := ⟨{ rootPayload with version := 5 }, []⟩

/-- Signer-repository state: root present, baseline root at version 5,
no invites, current user `@bob`. -/
def signerSt : Signer.St := ⟨[("root", rootMd)], [], [("root", prevRootMd)], [], "@bob"⟩

/-- A timestamp metadata file at version 3. -/
def tsMd : Metadata := ⟨⟨3, 50, ⟨none, none⟩, .timestamp 3⟩, []⟩

/-- Online-repository state: root and timestamp present, baseline root. -/
def pgSt : Playground.St :=
  ⟨[("root", rootMd), ("timestamp", tsMd)], some [("root", prevRootMd)], []⟩

/-- An offline key owned by `@old`, present only in the baseline root. -/
def keyOld : Key := ⟨"kidP", "ed25519", some "@old", none⟩

/-- A baseline root whose root role is delegated to `@old`'s key only —
a key the current root no longer lists. -/
def prevRootUnionMd : Metadata :=
  ⟨⟨5, 100, ⟨some 10, some 5⟩,
    .root [("root", ⟨["kidP"], 1, none, none⟩)] [("kidP", keyOld)]⟩, []⟩

/-- Signer-repository state whose baseline root keys differ from the
current root keys (rotation in progress). -/
def signerUnionSt : Signer.St :=
  ⟨[("root", rootMd)], [], [("root", prevRootUnionMd)], [], "@bob"⟩

/-- The state after the signer closes root on the rotation fixture. -/
def signerUnionStAfter : Signer.St :=
  match Signer.close cryptoOk signerUnionSt 0 "root" rootMd with
  | .ok s' => s'
  | .error _ => signerUnionSt

/-- An empty signer-repository state (no metadata files at all). -/
def emptySignerSt : Signer.St := ⟨[], [], [], [], "@bob"⟩

/-- An empty online-repository state (no metadata files at all). -/
def emptyPgSt : Playground.St := ⟨[], none, []⟩

/-- A root payload whose root role lists a keyid (`kidGhost`) for which no
key descriptor exists in the keys dict. -/
def rootGhostPayload : Signed :=
  ⟨5, 100, ⟨some 10, some 5⟩,
    .root [("root", ⟨["kidA", "kidGhost"], 1, none, none⟩)] [("kidA", keyAlice)]⟩

/-- Metadata carrying `rootGhostPayload`. -/
def rootGhostMd : Metadata := ⟨rootGhostPayload, []⟩

/-- Online-repository state with the ghost keyid in root. -/
def pgGhostSt : Playground.St := ⟨[("root", rootGhostMd)], none, []⟩

/-- Signer-repository state with the ghost keyid in root. -/
def signerGhostSt : Signer.St := ⟨[("root", rootGhostMd)], [], [], [], "@bob"⟩

/-- The state after one edit-and-close of root on the signer fixture. -/
def signerStAfter : Signer.St :=
  match Signer.editCloseMany Fixtures.cryptoOk 0 "root" Fixtures.signerSt
      [fun sd => sd] with
  | .ok s' => s'
  | .error _ => Fixtures.signerSt

/-- The output of `status` for root on the fixture. -/
def statusRootFx : SigningStatus × Option SigningStatus :=
  match Playground.status Fixtures.cryptoOk Fixtures.pgSt 0 "root" with
  | .ok r => r
  | .error _ => (⟨[], [], [], 0, false, none⟩, none)

end Fixtures

/-! ## Dictionary lemmas -/

theorem dictGet_dictInsert_self [BEq κ] [LawfulBEq κ] (k : κ) (v : α) (d : List (κ × α)) :
    dictGet k (dictInsert k v d) = some v := by
  induction d with
  | nil => simp [dictInsert, dictGet]
  | cons p rest ih =>
    obtain ⟨k', v'⟩ := p
    simp only [dictInsert]
    split
    · simp [dictGet]
    · rename_i h
      simpa [dictGet, h] using ih

theorem dictGet_dictInsert_ne [BEq κ] [LawfulBEq κ] (k k₂ : κ) (v : α) (d : List (κ × α))
    (hne : k ≠ k₂) : dictGet k₂ (dictInsert k v d) = dictGet k₂ d := by
  induction d with
  | nil => simp [dictInsert, dictGet, hne]
  | cons p rest ih =>
    obtain ⟨k', v'⟩ := p
    simp only [dictInsert]
    split
    · rename_i h
      have hk : k' = k := by simpa using h
      subst hk
      simp [dictGet, hne]
    · simp only [dictGet]
      split
      · rfl
      · exact ih

/-! ## Lemmas about the signer repository's close -/

theorem Signer.signMd_signed (c : Crypto) (md : Metadata) (k : Key) :
    (Signer.signMd c md k).signed = md.signed := rfl

theorem Signer.closeSigs_signed (c : Crypto) (u : String) (w : Bool) :
    ∀ (keys : List Key) (md md' : Metadata),
    Signer.closeSigs c u w keys md = .ok md' → md'.signed = md.signed := by
  intro keys
  induction keys with
  | nil =>
    intro md md' h
    simp only [Signer.closeSigs] at h
    cases h
    rfl
  | cons k rest ih =>
    intro md md' h
    simp only [Signer.closeSigs] at h
    split at h
    · cases h
    · split at h
      · exact (ih _ _ h).trans rfl
      · split at h
        · rw [ih _ _ h, Signer.signMd_signed]
        · exact (ih _ _ h).trans rfl

/-- What a successful `SignerRepository.close` guarantees: the known-good
directory is untouched, and the written file's version is exactly the
known-good version plus one. -/
theorem Signer.close_spec (c : Crypto) (s : Signer.St) (now : Int) (role : String)
    (md : Metadata) (s' : Signer.St) (h : Signer.close c s now role md = .ok s') :
    s'.prevDir = s.prevDir ∧
    (dictGet role s'.dir).map (fun m => m.signed.version)
      = some (Signer.prevVersion s role + 1) := by
  simp only [Signer.close] at h
  split at h
  · cases h
  · split at h
    · cases h
    · split at h
      · cases h
      · rename_i hsigs
        cases h
        refine ⟨rfl, ?_⟩
        have hsigned := Signer.closeSigs_signed c s.userName _ _ _ _ hsigs
        simp only [Signer.write]
        rw [dictGet_dictInsert_self]
        simp [hsigned]

theorem Signer.editClose_spec (c : Crypto) (s : Signer.St) (now : Int) (role : String)
    (f : Signed → Signed) (s' : Signer.St)
    (h : Signer.editClose c s now role f = .ok s') :
    s'.prevDir = s.prevDir ∧
    (dictGet role s'.dir).map (fun m => m.signed.version)
      = some (Signer.prevVersion s role + 1) := by
  unfold Signer.editClose at h
  split at h
  · cases h
  · exact Signer.close_spec _ _ _ _ _ _ h

theorem Signer.prevVersion_congr (s s' : Signer.St) (role : String)
    (h : s'.prevDir = s.prevDir) :
    Signer.prevVersion s' role = Signer.prevVersion s role := by
  unfold Signer.prevVersion
  rw [h]

theorem Signer.editCloseMany_cons_spec (c : Crypto) (now : Int) (role : String) :
    ∀ (rest : List (Signed → Signed)) (s : Signer.St) (f : Signed → Signed)
      (s' : Signer.St),
    Signer.editCloseMany c now role s (f :: rest) = .ok s' →
    s'.prevDir = s.prevDir ∧
    (dictGet role s'.dir).map (fun m => m.signed.version)
      = some (Signer.prevVersion s role + 1) := by
  intro rest
  induction rest with
  | nil =>
    intro s f s' h
    simp only [Signer.editCloseMany] at h
    split at h
    · cases h
    · rename_i s₁ h₁
      cases h
      exact Signer.editClose_spec _ _ _ _ _ _ h₁
  | cons g rest ih =>
    intro s f s' h
    simp only [Signer.editCloseMany] at h
    split at h
    · cases h
    · rename_i s₁ h₁
      have hstep := Signer.editClose_spec _ _ _ _ _ _ h₁
      have htail := ih s₁ g s' h
      refine ⟨hstep.1 ▸ htail.1, ?_⟩
      rw [htail.2, Signer.prevVersion_congr s s₁ role hstep.1]

/-- C1: for every role edited within a signing event, closing the edit
sets the role's version to the known-good baseline version plus one
(baseline version 0 when the role has no baseline file); hence any
nonempty sequence of edit-and-close scopes within one signing event
commits a version exceeding the baseline version by exactly one. -/
theorem signer_event_commits_baseline_plus_one (c : Crypto) (now : Int)
    (role : String) (s s' : Signer.St) (fs : List (Signed → Signed))
    (hne : fs ≠ []) (h : Signer.editCloseMany c now role s fs = .ok s') :
    (dictGet role s'.dir).map (fun m => m.signed.version)
      = some (Signer.prevVersion s role + 1)
    ∧ (dictGet role s.prevDir = none →
        (dictGet role s'.dir).map (fun m => m.signed.version) = some 1) := by
  match fs with
  | [] => exact absurd rfl hne
  | f :: rest =>
    have hmain := (Signer.editCloseMany_cons_spec c now role rest s f s' h).2
    refine ⟨hmain, fun hnone => ?_⟩
    rw [hmain]
    unfold Signer.prevVersion
    rw [hnone]
    rfl

/-- Witness for C1 at the fixture: baseline root is at version 5, so the
committed root is at version 6. -/
theorem signer_event_commits_baseline_plus_one_witness :
    (dictGet "root" Fixtures.signerStAfter.dir).map (fun m => m.signed.version)
      = some (Signer.prevVersion Fixtures.signerSt "root" + 1)
    ∧ (dictGet "root" Fixtures.signerSt.prevDir = none →
        (dictGet "root" Fixtures.signerStAfter.dir).map (fun m => m.signed.version)
          = some 1) :=
  signer_event_commits_baseline_plus_one Fixtures.cryptoOk 0 "root"
    Fixtures.signerSt Fixtures.signerStAfter [fun sd => sd] (by simp) (by rfl)

/-! ## Lemmas about the online repository's close -/

theorem Playground.closeSig_online_ok (c : Crypto) (rolename : String)
    (payload : Signed) (k : Key) (sg : Signature)
    (honline : rolename = "timestamp" ∨ rolename = "snapshot")
    (h : Playground.closeSig c rolename payload k = .ok sg) :
    ∃ uri, k.onlineUri = some uri ∧ sg = ⟨k.keyid, c.sign uri k payload⟩ := by
  unfold Playground.closeSig at h
  have hcond : (rolename == "timestamp" || rolename == "snapshot") = true := by
    rcases honline with h' | h' <;> simp [h']
  rw [if_pos hcond] at h
  split at h
  · cases h
  · rename_i uri huri
    cases h
    exact ⟨uri, huri, rfl⟩

/-- Where each entry of the signature dict built by `close`'s signing loop
comes from: untouched from the initial dict (when no processed key has
that keyid), or produced by `closeSig` for one of the processed keys. -/
theorem Playground.buildSigs_entry (c : Crypto) (rolename : String) (payload : Signed) :
    ∀ (keys : List Key) (sigs0 sigs : List (String × Signature)),
    Playground.buildSigs c rolename payload keys sigs0 = .ok sigs →
    ∀ x : String,
      (dictGet x sigs = dictGet x sigs0 ∧ ∀ k ∈ keys, k.keyid ≠ x) ∨
      (∃ k', k' ∈ keys ∧ k'.keyid = x ∧
        ∃ sg, Playground.closeSig c rolename payload k' = .ok sg ∧
          dictGet x sigs = some sg) := by
  intro keys
  induction keys with
  | nil =>
    intro sigs0 sigs h x
    simp only [Playground.buildSigs] at h
    cases h
    exact Or.inl ⟨rfl, by simp⟩
  | cons k₀ rest ih =>
    intro sigs0 sigs h x
    simp only [Playground.buildSigs] at h
    split at h
    · cases h
    · rename_i sg₀ hsg₀
      rcases ih _ _ h x with ⟨heq, hnone⟩ | ⟨k', hk', hkid, sg, hsg, hget⟩
      · by_cases hx : k₀.keyid = x
        · refine Or.inr ⟨k₀, List.mem_cons_self _ _, hx, sg₀, hsg₀, ?_⟩
          rw [heq, ← hx, dictGet_dictInsert_self]
        · refine Or.inl ⟨?_, ?_⟩
          · rw [heq, dictGet_dictInsert_ne _ _ _ _ hx]
          · intro k hk
            rcases List.mem_cons.mp hk with rfl | hk
            · exact hx
            · exact hnone k hk
      · exact Or.inr ⟨k', List.mem_cons_of_mem _ hk', hkid, sg, hsg, hget⟩

/-- C2: closing an online role (snapshot or timestamp) signs with every
configured key through the signer named by its online-URI field and only
writes after the result verifies against root's declared keys and
threshold; a verification failure makes `close` fail with no change to any
file. -/
theorem online_close_verifies_before_write (c : Crypto) (s : Playground.St)
    (now : Int) (rolename : String) (md : Metadata)
    (honline : rolename = "timestamp" ∨ rolename = "snapshot") :
    (∀ s' md', Playground.close c s now rolename md = .ok (s', md') →
      s'.dir = dictInsert rolename md' s.dir ∧ s'.prevDir = s.prevDir ∧
      (∃ rootMd, Playground.openRole s "root" = .ok rootMd ∧
        verifyDelegate c rootMd.signed rolename md' = .ok ()) ∧
      (∀ keys, Playground.getKeys s rolename = .ok keys → ∀ k ∈ keys,
        ∃ k' uri, k' ∈ keys ∧ k'.keyid = k.keyid ∧ k'.onlineUri = some uri ∧
          dictGet k.keyid md'.signatures
            = some ⟨k'.keyid, c.sign uri k' md'.signed⟩))
    ∧ (∀ md' rootMd e, Playground.prepareClose c s now rolename md = .ok md' →
        Playground.openRole s "root" = .ok rootMd →
        verifyDelegate c rootMd.signed rolename md' = .error e →
        Playground.close c s now rolename md = .error e) := by
  have hcond : (rolename == "timestamp" || rolename == "snapshot") = true := by
    rcases honline with h' | h' <;> simp [h']
  constructor
  · intro s' md' h
    unfold Playground.close at h
    split at h
    · cases h
    · rename_i md₁ hprep
      rw [if_pos hcond] at h
      split at h
      · cases h
      · rename_i rootMd hroot
        split at h
        · cases h
        · rename_i u hverify
          cases h
          refine ⟨rfl, rfl, ⟨rootMd, hroot, by rw [hverify]⟩, ?_⟩
          intro keys hkeys k hk
          unfold Playground.prepareClose at hprep
          split at hprep
          · cases hprep
          · split at hprep
            · cases hprep
            · rename_i keys₀ hkeys₀
              split at hprep
              · cases hprep
              · rename_i sigs hsigs
                cases hprep
                rw [hkeys₀] at hkeys
                cases hkeys
                rcases Playground.buildSigs_entry c rolename _ keys [] sigs hsigs k.keyid with
                  ⟨_, hnone⟩ | ⟨k', hk', hkid, sg, hsg, hget⟩
                · exact absurd rfl (hnone k hk)
                · rcases Playground.closeSig_online_ok c rolename _ k' sg honline hsg with
                    ⟨uri, huri, rfl⟩
                  exact ⟨k', uri, hk', hkid, huri, by rw [hget, hkid]⟩
  · intro md' rootMd e hprep hroot hverify
    unfold Playground.close
    simp [hprep, hcond, hroot, hverify]

/-- Witness for C2 at the fixture timestamp role. -/
theorem online_close_verifies_before_write_witness :
    (∀ s' md',
      Playground.close Fixtures.cryptoOk Fixtures.pgSt 0 "timestamp" Fixtures.tsMd
        = .ok (s', md') →
      s'.dir = dictInsert "timestamp" md' Fixtures.pgSt.dir ∧
      s'.prevDir = Fixtures.pgSt.prevDir ∧
      (∃ rootMd, Playground.openRole Fixtures.pgSt "root" = .ok rootMd ∧
        verifyDelegate Fixtures.cryptoOk rootMd.signed "timestamp" md' = .ok ()) ∧
      (∀ keys, Playground.getKeys Fixtures.pgSt "timestamp" = .ok keys → ∀ k ∈ keys,
        ∃ k' uri, k' ∈ keys ∧ k'.keyid = k.keyid ∧ k'.onlineUri = some uri ∧
          dictGet k.keyid md'.signatures
            = some ⟨k'.keyid, Fixtures.cryptoOk.sign uri k' md'.signed⟩))
    ∧ (∀ md' rootMd e,
        Playground.prepareClose Fixtures.cryptoOk Fixtures.pgSt 0 "timestamp" Fixtures.tsMd
          = .ok md' →
        Playground.openRole Fixtures.pgSt "root" = .ok rootMd →
        verifyDelegate Fixtures.cryptoOk rootMd.signed "timestamp" md' = .error e →
        Playground.close Fixtures.cryptoOk Fixtures.pgSt 0 "timestamp" Fixtures.tsMd
          = .error e) :=
  online_close_verifies_before_write Fixtures.cryptoOk Fixtures.pgSt 0 "timestamp"
    Fixtures.tsMd (Or.inl rfl)

/-! ## Lemmas about validity in the signing status -/

theorem Playground.validateRole_true (c : Crypto) (s : Playground.St) (now : Int)
    (delegator : Metadata) (rolename : String) (msg : Option String)
    (h : Playground.validateRole c s now delegator rolename = .ok (true, msg)) :
    ∃ md, Playground.openRole s rolename = .ok md ∧
      verifyDelegate c delegator.signed rolename md = .ok () := by
  unfold Playground.validateRole at h
  split at h
  · cases h
  · rename_i md hmd
    split at h
    · simp at h
    · split at h
      · cases h
      · split at h
        · simp at h
        · split at h
          · simp at h
          · rename_i u hver
            cases u
            exact ⟨md, hmd, hver⟩

theorem Playground.getSigningStatus_valid (c : Crypto) (s : Playground.St)
    (now : Int) (delegator : Metadata) (rolename : String) (st : SigningStatus)
    (h : Playground.getSigningStatus c s now delegator rolename = .ok st)
    (hv : st.valid = true) :
    ∃ md, Playground.openRole s rolename = .ok md ∧
      verifyDelegate c delegator.signed rolename md = .ok () := by
  unfold Playground.getSigningStatus at h
  split at h
  · cases h
  · split at h
    · cases h
    · split at h
      · cases h
      · split at h
        · cases h
        · split at h
          · cases h
          · rename_i valid msg hval
            cases h
            dsimp only at hv
            subst hv
            exact Playground.validateRole_true _ _ _ _ _ _ hval

/-- C3: status for root additionally computes a signing status under the
previous root as delegator whenever a known-good root exists; each
status's validity implies the threshold check passes under its own
delegator (previous root for the second, the role's current delegator for
the first); for non-root roles, and for root without a baseline, no
previous-delegator status is produced. -/
theorem root_status_includes_previous_root_check (c : Crypto) (s : Playground.St)
    (now : Int) (rolename : String) (st1 : SigningStatus)
    (st2opt : Option SigningStatus)
    (h : Playground.status c s now rolename = .ok (st1, st2opt)) :
    (rolename ≠ "root" → st2opt = none)
    ∧ (Playground.openPrev s rolename = none → st2opt = none)
    ∧ (rolename = "root" → ∀ prevMd, Playground.openPrev s "root" = some prevMd →
        ∃ st2, st2opt = some st2 ∧
          Playground.getSigningStatus c s now prevMd "root" = .ok st2 ∧
          (st2.valid = true → ∃ md, Playground.openRole s "root" = .ok md ∧
            verifyDelegate c prevMd.signed "root" md = .ok ()))
    ∧ (st1.valid = true → ∃ delegator md,
        (if rolename == "root" || rolename == "targets" then Playground.openRole s "root"
         else Playground.openRole s "targets") = .ok delegator ∧
        Playground.openRole s rolename = .ok md ∧
        verifyDelegate c delegator.signed rolename md = .ok ()) := by
  unfold Playground.status at h
  split at h
  · cases h
  · split at h
    · cases h
    · rename_i prev hprev
      split at h
      · cases h
      · rename_i delegator hdeleg
        split at h
        · cases h
        · rename_i st hst
          cases h
          refine ⟨?_, ?_, ?_, ?_⟩
          · intro hne
            unfold Playground.prevStatus at hprev
            rw [if_neg (by simpa using hne)] at hprev
            cases hprev
            rfl
          · intro hnone
            unfold Playground.prevStatus at hprev
            split at hprev
            · rw [hnone] at hprev
              cases hprev
              rfl
            · cases hprev
              rfl
          · intro hroot prevMd hsome
            subst hroot
            unfold Playground.prevStatus at hprev
            rw [if_pos (by simp)] at hprev
            split at hprev
            · rename_i p hp
              rw [hsome] at hp
              cases hp
              split at hprev
              · cases hprev
              · rename_i st2 hst2
                cases hprev
                exact ⟨st2, rfl, hst2, fun hvalid =>
                  Playground.getSigningStatus_valid _ _ _ _ _ _ hst2 hvalid⟩
            · rename_i hp
              rw [hsome] at hp
              cases hp
          · intro hvalid
            rcases Playground.getSigningStatus_valid _ _ _ _ _ _ hst hvalid with
              ⟨md, hmd, hver⟩
            exact ⟨delegator, md, hdeleg, hmd, hver⟩

/-- Witness for C3: on the fixture, root has a baseline, so status
produces the extra previous-root signing status. -/
theorem root_status_includes_previous_root_check_witness :
    ("root" ≠ "root" → Fixtures.statusRootFx.2 = none)
    ∧ (Playground.openPrev Fixtures.pgSt "root" = none → Fixtures.statusRootFx.2 = none)
    ∧ ("root" = "root" → ∀ prevMd,
        Playground.openPrev Fixtures.pgSt "root" = some prevMd →
        ∃ st2, Fixtures.statusRootFx.2 = some st2 ∧
          Playground.getSigningStatus Fixtures.cryptoOk Fixtures.pgSt 0 prevMd "root"
            = .ok st2 ∧
          (st2.valid = true → ∃ md,
            Playground.openRole Fixtures.pgSt "root" = .ok md ∧
            verifyDelegate Fixtures.cryptoOk prevMd.signed "root" md = .ok ()))
    ∧ (Fixtures.statusRootFx.1.valid = true → ∃ delegator md,
        (if "root" == "root" || "root" == "targets" then
          Playground.openRole Fixtures.pgSt "root"
         else Playground.openRole Fixtures.pgSt "targets") = .ok delegator ∧
        Playground.openRole Fixtures.pgSt "root" = .ok md ∧
        verifyDelegate Fixtures.cryptoOk delegator.signed "root" md = .ok ()) :=
  root_status_includes_previous_root_check Fixtures.cryptoOk Fixtures.pgSt 0 "root"
    Fixtures.statusRootFx.1 Fixtures.statusRootFx.2 (by rfl)

/-- C4: status computation does not raise for the three advisory checks —
a version not above the baseline, an expiry further ahead than now plus
the expiry period, or a failing delegation verification each produce a
`SigningStatus` with `valid = false` (with a diagnostic message for the
first two cases), and `_get_signing_status` passes that verdict through
verbatim instead of failing. -/
theorem signing_status_failures_do_not_raise (c : Crypto) (s : Playground.St)
    (now : Int) (delegator : Metadata) (rolename : String) (md : Metadata)
    (hopen : Playground.openRole s rolename = .ok md) :
    (Playground.versionRegressed md (Playground.openPrev s rolename) = true →
      ∃ m, Playground.validateRole c s now delegator rolename = .ok (false, some m))
    ∧ (∀ days, Playground.versionRegressed md (Playground.openPrev s rolename) = false →
        md.signed.fields.expiryPeriod = some days →
        md.signed.expires > now + days →
        ∃ m, Playground.validateRole c s now delegator rolename = .ok (false, some m))
    ∧ (∀ days e, Playground.versionRegressed md (Playground.openPrev s rolename) = false →
        md.signed.fields.expiryPeriod = some days →
        ¬ md.signed.expires > now + days →
        verifyDelegate c delegator.signed rolename md = .error e →
        Playground.validateRole c s now delegator rolename = .ok (false, none))
    ∧ (∀ valid msg role keys pair,
        getDelegatedRole delegator.signed rolename = some role →
        Playground.getKeys s rolename = .ok keys →
        Playground.collectSigners c md keys ([], []) = .ok pair →
        Playground.validateRole c s now delegator rolename = .ok (valid, msg) →
        ∃ st, Playground.getSigningStatus c s now delegator rolename = .ok st ∧
          st.valid = valid ∧ st.message = msg ∧ st.signed = pair.1 ∧
          st.missing = pair.2 ∧ st.threshold = role.threshold) := by
  refine ⟨?_, ?_, ?_, ?_⟩
  · intro hA
    unfold Playground.validateRole
    rw [hopen]
    simp only [hA, if_true]
    exact ⟨_, rfl⟩
  · intro days hA hdays hfar
    unfold Playground.validateRole
    rw [hopen]
    simp only [hA, Bool.false_eq_true, if_false, hdays]
    rw [if_pos hfar]
    exact ⟨_, rfl⟩
  · intro days e hA hdays hnear hver
    unfold Playground.validateRole
    rw [hopen]
    simp only [hA, Bool.false_eq_true, if_false, hdays]
    rw [if_neg hnear, hver]
  · intro valid msg role keys pair hrole hkeys hcollect hvalidate
    unfold Playground.getSigningStatus
    rw [hopen]
    simp only [hrole, hkeys]
    obtain ⟨sigs, missing⟩ := pair
    rw [hcollect, hvalidate]
    exact ⟨_, rfl, rfl, rfl, rfl, rfl, rfl⟩

/-- Witness for C4 at the fixture root role (whose version equals the
baseline version, so the first advisory check fires concretely). -/
theorem signing_status_failures_do_not_raise_witness :
    (Playground.versionRegressed Fixtures.rootMd
        (Playground.openPrev Fixtures.pgSt "root") = true →
      ∃ m, Playground.validateRole Fixtures.cryptoOk Fixtures.pgSt 0
        Fixtures.prevRootMd "root" = .ok (false, some m))
    ∧ (∀ days, Playground.versionRegressed Fixtures.rootMd
          (Playground.openPrev Fixtures.pgSt "root") = false →
        Fixtures.rootMd.signed.fields.expiryPeriod = some days →
        Fixtures.rootMd.signed.expires > 0 + days →
        ∃ m, Playground.validateRole Fixtures.cryptoOk Fixtures.pgSt 0
          Fixtures.prevRootMd "root" = .ok (false, some m))
    ∧ (∀ days e, Playground.versionRegressed Fixtures.rootMd
          (Playground.openPrev Fixtures.pgSt "root") = false →
        Fixtures.rootMd.signed.fields.expiryPeriod = some days →
        ¬ Fixtures.rootMd.signed.expires > 0 + days →
        verifyDelegate Fixtures.cryptoOk Fixtures.prevRootMd.signed "root"
          Fixtures.rootMd = .error e →
        Playground.validateRole Fixtures.cryptoOk Fixtures.pgSt 0
          Fixtures.prevRootMd "root" = .ok (false, none))
    ∧ (∀ valid msg role keys pair,
        getDelegatedRole Fixtures.prevRootMd.signed "root" = some role →
        Playground.getKeys Fixtures.pgSt "root" = .ok keys →
        Playground.collectSigners Fixtures.cryptoOk Fixtures.rootMd keys ([], [])
          = .ok pair →
        Playground.validateRole Fixtures.cryptoOk Fixtures.pgSt 0
          Fixtures.prevRootMd "root" = .ok (valid, msg) →
        ∃ st, Playground.getSigningStatus Fixtures.cryptoOk Fixtures.pgSt 0
            Fixtures.prevRootMd "root" = .ok st ∧
          st.valid = valid ∧ st.message = msg ∧ st.signed = pair.1 ∧
          st.missing = pair.2 ∧ st.threshold = role.threshold) :=
  signing_status_failures_do_not_raise Fixtures.cryptoOk Fixtures.pgSt 0
    Fixtures.prevRootMd "root" Fixtures.rootMd (by rfl)

/-- C5: at a state where the current user (`@bob`) owns none of root's
keys, `SignerRepository.sign` returns with no error and no write: the
source ends the loop with `assert("...")` on a non-empty string, which is
always truthy in Python, so the intended failure never happens. -/
theorem sign_without_matching_key_returns_silently :
    Signer.getKeys Fixtures.signerSt "root" = .ok [Fixtures.keyAlice]
    ∧ Fixtures.keyAlice.keyowner = some "@alice"
    ∧ Fixtures.signerSt.userName = "@bob"
    ∧ Signer.sign Fixtures.cryptoOk Fixtures.signerSt "root"
        = .ok Fixtures.signerSt := by
  refine ⟨by rfl, by rfl, by rfl, by rfl⟩

/-! ## Lemmas about bump_expiring -/

theorem Playground.close_ok_spec (c : Crypto) (s : Playground.St) (now : Int)
    (rolename : String) (md : Metadata) (s' : Playground.St) (md' : Metadata)
    (h : Playground.close c s now rolename md = .ok (s', md')) :
    md'.signed.version = md.signed.version + 1 ∧
    s'.dir = dictInsert rolename md' s.dir ∧ s'.prevDir = s.prevDir := by
  unfold Playground.close at h
  split at h
  · cases h
  · rename_i md₁ hprep
    unfold Playground.prepareClose at hprep
    split at hprep
    · cases hprep
    · split at hprep
      · cases hprep
      · split at hprep
        · cases hprep
        · cases hprep
          split at h
          · split at h
            · cases h
            · split at h
              · cases h
              · cases h
                exact ⟨rfl, rfl, rfl⟩
          · cases h
            exact ⟨rfl, rfl, rfl⟩

/-- C8: `bump_expiring` returns `None` and leaves every file unwritten
when now plus the signing period is still earlier than the current expiry;
otherwise it commits (via `close`) a version equal to the previous version
plus one and returns exactly that new version. -/
theorem bump_expiring_spec (c : Crypto) (s : Playground.St) (now : Int)
    (rolename : String) (md : Metadata) (sd ed : Int)
    (hopen : Playground.openRole s rolename = .ok md)
    (hperiod : Playground.signingExpiryPeriod s rolename = .ok (sd, ed)) :
    (now + sd < md.signed.expires →
      Playground.bumpExpiring c s now rolename = .ok (s, none))
    ∧ (¬ now + sd < md.signed.expires →
        ∀ s' md', Playground.close c s now rolename md = .ok (s', md') →
          Playground.bumpExpiring c s now rolename = .ok (s', some md'.signed.version)
          ∧ md'.signed.version = md.signed.version + 1
          ∧ dictGet rolename s'.dir = some md') := by
  constructor
  · intro hearly
    unfold Playground.bumpExpiring
    rw [hopen]
    simp only [hperiod]
    rw [if_pos hearly]
  · intro hlate s' md' hclose
    rcases Playground.close_ok_spec c s now rolename md s' md' hclose with
      ⟨hver, hdir, _⟩
    refine ⟨?_, hver, ?_⟩
    · unfold Playground.bumpExpiring
      rw [hopen]
      simp only [hperiod]
      rw [if_neg hlate, hclose]
    · rw [hdir, dictGet_dictInsert_self]

/-- Witness for C8 at the fixture timestamp (signing period 1 day, expiry
50 days ahead, so the early-abort branch is concretely enabled). -/
theorem bump_expiring_spec_witness :
    ((0 : Int) + 1 < Fixtures.tsMd.signed.expires →
      Playground.bumpExpiring Fixtures.cryptoOk Fixtures.pgSt 0 "timestamp"
        = .ok (Fixtures.pgSt, none))
    ∧ (¬ (0 : Int) + 1 < Fixtures.tsMd.signed.expires →
        ∀ s' md',
          Playground.close Fixtures.cryptoOk Fixtures.pgSt 0 "timestamp" Fixtures.tsMd
            = .ok (s', md') →
          Playground.bumpExpiring Fixtures.cryptoOk Fixtures.pgSt 0 "timestamp"
            = .ok (s', some md'.signed.version)
          ∧ md'.signed.version = Fixtures.tsMd.signed.version + 1
          ∧ dictGet "timestamp" s'.dir = some md') :=
  bump_expiring_spec Fixtures.cryptoOk Fixtures.pgSt 0 "timestamp" Fixtures.tsMd 1 2
    (by rfl) (by rfl)

/-- C9: the signing period used by the repository is the role's
`x-playground-signing-period` when present (read from root's role entry
for the online roles, from the role's own signed payload otherwise), and
defaults to the expiry period floor-divided by two when the field is
absent. -/
theorem signing_period_defaults_to_half_expiry (s : Playground.St) (rolename : String) :
    ((rolename = "timestamp" ∨ rolename = "snapshot") →
      ∀ root ri e, Playground.rootSigned s = .ok root →
        getDelegatedRole root rolename = some ri →
        ri.expiryPeriod = some e →
        ((ri.signingPeriod = none →
          Playground.signingExpiryPeriod s rolename = .ok (Int.fdiv e 2, e))
        ∧ (∀ sp, ri.signingPeriod = some sp →
          Playground.signingExpiryPeriod s rolename = .ok (sp, e))))
    ∧ (¬ (rolename = "timestamp" ∨ rolename = "snapshot") →
      ∀ signed e,
        (if rolename == "root" then Playground.rootSigned s
         else Playground.targetsSigned s rolename) = .ok signed →
        signed.fields.expiryPeriod = some e →
        ((signed.fields.signingPeriod = none →
          Playground.signingExpiryPeriod s rolename = .ok (Int.fdiv e 2, e))
        ∧ (∀ sp, signed.fields.signingPeriod = some sp →
          Playground.signingExpiryPeriod s rolename = .ok (sp, e)))) := by
  constructor
  · intro honline root ri e hroot hri he
    have hcond : (rolename == "timestamp" || rolename == "snapshot") = true := by
      rcases honline with h' | h' <;> simp [h']
    constructor
    · intro hsp
      simp [Playground.signingExpiryPeriod, hcond, hroot, hri, he, hsp]
    · intro sp hsp
      simp [Playground.signingExpiryPeriod, hcond, hroot, hri, he, hsp]
  · intro hoffline signed e hsigned he
    have h1 : rolename ≠ "timestamp" := fun hh => hoffline (Or.inl hh)
    have h2 : rolename ≠ "snapshot" := fun hh => hoffline (Or.inr hh)
    have hcond : (rolename == "timestamp" || rolename == "snapshot") = false := by
      simp [h1, h2]
    simp only [beq_iff_eq] at hsigned
    constructor
    · intro hsp
      simp [Playground.signingExpiryPeriod, hcond, hsigned, he, hsp]
    · intro sp hsp
      simp [Playground.signingExpiryPeriod, hcond, hsigned, he, hsp]

/-- Witness for C9 at the fixture snapshot role (no signing period
configured, expiry period 2 days, so the period falls back to 1 day). -/
theorem signing_period_defaults_to_half_expiry_witness :
    ((("snapshot" : String) = "timestamp" ∨ ("snapshot" : String) = "snapshot") →
      ∀ root ri e, Playground.rootSigned Fixtures.pgSt = .ok root →
        getDelegatedRole root "snapshot" = some ri →
        ri.expiryPeriod = some e →
        ((ri.signingPeriod = none →
          Playground.signingExpiryPeriod Fixtures.pgSt "snapshot" = .ok (Int.fdiv e 2, e))
        ∧ (∀ sp, ri.signingPeriod = some sp →
          Playground.signingExpiryPeriod Fixtures.pgSt "snapshot" = .ok (sp, e))))
    ∧ (¬ (("snapshot" : String) = "timestamp" ∨ ("snapshot" : String) = "snapshot") →
      ∀ signed e,
        (if ("snapshot" : String) == "root" then Playground.rootSigned Fixtures.pgSt
         else Playground.targetsSigned Fixtures.pgSt "snapshot") = .ok signed →
        signed.fields.expiryPeriod = some e →
        ((signed.fields.signingPeriod = none →
          Playground.signingExpiryPeriod Fixtures.pgSt "snapshot" = .ok (Int.fdiv e 2, e))
        ∧ (∀ sp, signed.fields.signingPeriod = some sp →
          Playground.signingExpiryPeriod Fixtures.pgSt "snapshot" = .ok (sp, e)))) :=
  signing_period_defaults_to_half_expiry Fixtures.pgSt "snapshot"

/-! ## The key set considered when the signer closes a role -/

theorem dictGet_dictInsert_isSome [BEq κ] [LawfulBEq κ] (k₀ kid : κ) (v : α)
    (d : List (κ × α)) :
    (dictGet kid (dictInsert k₀ v d)).isSome = true ↔
      k₀ = kid ∨ (dictGet kid d).isSome = true := by
  by_cases h : k₀ = kid
  · subst h
    rw [dictGet_dictInsert_self]
    simp
  · rw [dictGet_dictInsert_ne _ _ _ _ h]
    simp [h]

/-- The signature dict produced by the signer's close loop holds an entry
exactly for the keyids of the processed keys (and whatever was present
initially). -/
theorem Signer.closeSigs_domain (c : Crypto) (u : String) (w : Bool) :
    ∀ (keys : List Key) (md md' : Metadata),
    Signer.closeSigs c u w keys md = .ok md' →
    ∀ kid, (dictGet kid md'.signatures).isSome = true ↔
      ((dictGet kid md.signatures).isSome = true ∨ ∃ k, k ∈ keys ∧ k.keyid = kid) := by
  intro keys
  induction keys with
  | nil =>
    intro md md' h kid
    simp only [Signer.closeSigs] at h
    cases h
    simp
  | cons k rest ih =>
    intro md md' h kid
    simp only [Signer.closeSigs] at h
    split at h
    · cases h
    · split at h
      · rw [ih _ _ h kid]
        simp only [dictGet_dictInsert_isSome, List.mem_cons]
        aesop
      · split at h
        · rw [ih _ _ h kid]
          simp only [Signer.signMd, dictGet_dictInsert_isSome, List.mem_cons]
          aesop
        · rw [ih _ _ h kid]
          simp only [dictGet_dictInsert_isSome, List.mem_cons]
          aesop

/-- A successful signer close writes a file whose signature dict covers
exactly the keyids of `_get_keys` (read from the current directory). -/
theorem Signer.close_ok_domain (c : Crypto) (s : Signer.St)
    (now : Int) (role : String) (md : Metadata) (s' : Signer.St)
    (h : Signer.close c s now role md = .ok s') :
    ∃ md' keys, dictGet role s'.dir = some md' ∧
      Signer.getKeys s role = .ok keys ∧
      ∀ kid, (dictGet kid md'.signatures).isSome = true ↔
        ∃ k, k ∈ keys ∧ k.keyid = kid := by
  simp only [Signer.close] at h
  split at h
  · cases h
  · split at h
    · cases h
    · rename_i keys hkeys
      split at h
      · cases h
      · rename_i md'' hsigs
        cases h
        refine ⟨md'', keys, ?_, hkeys, ?_⟩
        · simp only [Signer.write]
          rw [dictGet_dictInsert_self]
        · intro kid
          rw [Signer.closeSigs_domain c s.userName _ _ _ _ hsigs kid]
          simp [dictGet]

/-- C6 (amended): when the signer closes a role — root included — the set
of keyids receiving a signature or placeholder is exactly the keyid set of
`_get_keys`, which reads the delegation from the *current* directory's
root; the baseline root's keys play no part. -/
theorem signer_close_keys_come_from_current_root (c : Crypto) (s : Signer.St)
    (now : Int) (role : String) (md : Metadata) (s' : Signer.St)
    (h : Signer.close c s now role md = .ok s') :
    ∃ md' keys, dictGet role s'.dir = some md' ∧
      Signer.getKeys s role = .ok keys ∧
      ∀ kid, (dictGet kid md'.signatures).isSome = true ↔
        ∃ k, k ∈ keys ∧ k.keyid = kid :=
  Signer.close_ok_domain c s now role md s' h

/-- Counterexample to C6 as stated: with a baseline root delegating root
to `@old`'s key `kidP` and a current root delegating root to `kidA` only,
closing root produces no signature or placeholder for `kidP`, although
`kidP` is in the union of baseline and current root keys. -/
theorem signer_close_root_union_counterexample :
    getKey Fixtures.prevRootUnionMd.signed "kidP" = some Fixtures.keyOld
    ∧ (match getDelegatedRole Fixtures.prevRootUnionMd.signed "root" with
       | some r => r.keyids
       | none => []) = ["kidP"]
    ∧ Signer.close Fixtures.cryptoOk Fixtures.signerUnionSt 0 "root" Fixtures.rootMd
        = .ok Fixtures.signerUnionStAfter
    ∧ (dictGet "root" Fixtures.signerUnionStAfter.dir).map
        (fun m => dictGet "kidP" m.signatures) = some none
    ∧ (dictGet "root" Fixtures.signerUnionStAfter.dir).map
        (fun m => (dictGet "kidA" m.signatures).isSome) = some true :=
  ⟨rfl, rfl, rfl, rfl, rfl⟩

/-- Witness for the amended C6 at the rotation fixture. -/
theorem signer_close_keys_come_from_current_root_witness :
    ∃ md' keys, dictGet "root" Fixtures.signerUnionStAfter.dir = some md' ∧
      Signer.getKeys Fixtures.signerUnionSt "root" = .ok keys ∧
      ∀ kid, (dictGet kid md'.signatures).isSome = true ↔
        ∃ k, k ∈ keys ∧ k.keyid = kid :=
  signer_close_keys_come_from_current_root Fixtures.cryptoOk Fixtures.signerUnionSt
    0 "root" Fixtures.rootMd Fixtures.signerUnionStAfter (by rfl)

/-! ## Behaviour of open on absent role files -/

/-- C7 (amended): the two repositories differ for absent files. The online
repository's open creates a fresh version-0 snapshot/timestamp payload and
fails for any other absent role; the signer repository's open fails for
absent snapshot/timestamp and creates a fresh `Root()`/`Targets()`
skeleton (version 1, period fields zero) for any other absent role. Both
parse the file when it is present. -/
theorem open_absent_role_behaviour (ps : Playground.St) (ss : Signer.St)
    (role : String) :
    (dictGet role ps.dir = none →
      ((role ≠ "timestamp" → role ≠ "snapshot" →
        ∃ e, Playground.openRole ps role = .error e)
      ∧ (role = "timestamp" →
        Playground.openRole ps role = .ok ⟨⟨0, 0, ⟨none, none⟩, .timestamp 0⟩, []⟩)
      ∧ (role = "snapshot" →
        Playground.openRole ps role = .ok ⟨⟨0, 0, ⟨none, none⟩, .snapshot []⟩, []⟩)))
    ∧ (∀ md, dictGet role ps.dir = some md → Playground.openRole ps role = .ok md)
    ∧ (dictGet role ss.dir = none →
      (((role = "snapshot" ∨ role = "timestamp") →
        ∃ e, Signer.openRole ss role = .error e)
      ∧ (role = "root" →
        Signer.openRole ss role
          = .ok ⟨⟨1, 0, ⟨some 0, some 0⟩, .root Signer.rootDefaultRoles []⟩, []⟩)
      ∧ (role ≠ "snapshot" → role ≠ "timestamp" → role ≠ "root" →
        Signer.openRole ss role
          = .ok ⟨⟨1, 0, ⟨some 0, some 0⟩, .targets none⟩, []⟩)))
    ∧ (∀ md, dictGet role ss.dir = some md → Signer.openRole ss role = .ok md) := by
  refine ⟨?_, ?_, ?_, ?_⟩
  · intro habs
    refine ⟨?_, ?_, ?_⟩
    · intro h1 h2
      unfold Playground.openRole
      rw [habs]
      rw [if_neg (by simp [h1]), if_neg (by simp [h2])]
      exact ⟨_, rfl⟩
    · intro h1
      subst h1
      simp [Playground.openRole, habs]
    · intro h1
      subst h1
      simp [Playground.openRole, habs]
  · intro md hmd
    unfold Playground.openRole
    rw [hmd]
  · intro habs
    refine ⟨?_, ?_, ?_⟩
    · intro h1
      unfold Signer.openRole
      rw [habs]
      rw [if_pos (by rcases h1 with h' | h' <;> simp [h'])]
      exact ⟨_, rfl⟩
    · intro h1
      subst h1
      simp [Signer.openRole, habs]
    · intro h1 h2 h3
      unfold Signer.openRole
      rw [habs]
      rw [if_neg (by simp [h1, h2]), if_neg (by simp [h3])]
  · intro md hmd
    unfold Signer.openRole
    rw [hmd]

/-- Counterexample to C7 as stated: in the signer repository an absent
root file does not fail — a fresh root skeleton is returned — and an
absent snapshot file is an error rather than a fresh version-0 payload. -/
theorem open_absent_role_counterexample :
    dictGet "root" Fixtures.emptySignerSt.dir = none
    ∧ Signer.openRole Fixtures.emptySignerSt "root"
        = .ok ⟨⟨1, 0, ⟨some 0, some 0⟩, .root Signer.rootDefaultRoles []⟩, []⟩
    ∧ dictGet "snapshot" Fixtures.emptySignerSt.dir = none
    ∧ Signer.openRole Fixtures.emptySignerSt "snapshot"
        = .error (.valueError "Cannot create snapshot") :=
  ⟨rfl, rfl, rfl, rfl⟩

/-- Witness for the amended C7 at the empty fixtures and the root role. -/
theorem open_absent_role_behaviour_witness :
    (dictGet "root" Fixtures.emptyPgSt.dir = none →
      ((("root" : String) ≠ "timestamp" → ("root" : String) ≠ "snapshot" →
        ∃ e, Playground.openRole Fixtures.emptyPgSt "root" = .error e)
      ∧ (("root" : String) = "timestamp" →
        Playground.openRole Fixtures.emptyPgSt "root"
          = .ok ⟨⟨0, 0, ⟨none, none⟩, .timestamp 0⟩, []⟩)
      ∧ (("root" : String) = "snapshot" →
        Playground.openRole Fixtures.emptyPgSt "root"
          = .ok ⟨⟨0, 0, ⟨none, none⟩, .snapshot []⟩, []⟩)))
    ∧ (∀ md, dictGet "root" Fixtures.emptyPgSt.dir = some md →
        Playground.openRole Fixtures.emptyPgSt "root" = .ok md)
    ∧ (dictGet "root" Fixtures.emptySignerSt.dir = none →
      (((("root" : String) = "snapshot" ∨ ("root" : String) = "timestamp") →
        ∃ e, Signer.openRole Fixtures.emptySignerSt "root" = .error e)
      ∧ (("root" : String) = "root" →
        Signer.openRole Fixtures.emptySignerSt "root"
          = .ok ⟨⟨1, 0, ⟨some 0, some 0⟩, .root Signer.rootDefaultRoles []⟩, []⟩)
      ∧ (("root" : String) ≠ "snapshot" → ("root" : String) ≠ "timestamp" →
          ("root" : String) ≠ "root" →
        Signer.openRole Fixtures.emptySignerSt "root"
          = .ok ⟨⟨1, 0, ⟨some 0, some 0⟩, .targets none⟩, []⟩)))
    ∧ (∀ md, dictGet "root" Fixtures.emptySignerSt.dir = some md →
        Signer.openRole Fixtures.emptySignerSt "root" = .ok md) :=
  open_absent_role_behaviour Fixtures.emptyPgSt Fixtures.emptySignerSt "root"

/-! ## Keyids without a descriptor are skipped everywhere -/

theorem mem_addSet (l : List String) (x o : String) (h : o ∈ addSet l x) :
    o ∈ l ∨ o = x := by
  unfold addSet at h
  split at h
  · exact Or.inl h
  · rcases List.mem_append.mp h with h' | h'
    · exact Or.inl h'
    · exact Or.inr (List.mem_singleton.mp h')

/-- Every owner in the signed/missing sets built by the status key loop is
the owner of one of the processed keys (or was in the accumulator). -/
theorem Playground.collectSigners_mem (c : Crypto) (md : Metadata) :
    ∀ (keys : List Key) (acc p : List String × List String),
    Playground.collectSigners c md keys acc = .ok p →
    ∀ o, ((o ∈ p.1 → o ∈ acc.1 ∨ ∃ k, k ∈ keys ∧ k.keyowner = some o)
       ∧ (o ∈ p.2 → o ∈ acc.2 ∨ ∃ k, k ∈ keys ∧ k.keyowner = some o)) := by
  intro keys
  induction keys with
  | nil =>
    intro acc p h o
    simp only [Playground.collectSigners] at h
    cases h
    exact ⟨fun h1 => Or.inl h1, fun h2 => Or.inl h2⟩
  | cons k rest ih =>
    intro acc p h o
    obtain ⟨sigs, missing⟩ := acc
    simp only [Playground.collectSigners] at h
    split at h
    · cases h
    · rename_i owner howner
      split at h
      · split at h
        · have hr := ih _ _ h o
          refine ⟨fun h1 => ?_, fun h2 => ?_⟩
          · rcases hr.1 h1 with h' | ⟨k', hk', ho'⟩
            · rcases mem_addSet _ _ _ h' with h'' | rfl
              · exact Or.inl h''
              · exact Or.inr ⟨k, List.mem_cons_self _ _, howner⟩
            · exact Or.inr ⟨k', List.mem_cons_of_mem _ hk', ho'⟩
          · rcases hr.2 h2 with h' | ⟨k', hk', ho'⟩
            · exact Or.inl h'
            · exact Or.inr ⟨k', List.mem_cons_of_mem _ hk', ho'⟩
        · have hr := ih _ _ h o
          refine ⟨fun h1 => ?_, fun h2 => ?_⟩
          · rcases hr.1 h1 with h' | ⟨k', hk', ho'⟩
            · exact Or.inl h'
            · exact Or.inr ⟨k', List.mem_cons_of_mem _ hk', ho'⟩
          · rcases hr.2 h2 with h' | ⟨k', hk', ho'⟩
            · rcases mem_addSet _ _ _ h' with h'' | rfl
              · exact Or.inl h''
              · exact Or.inr ⟨k, List.mem_cons_self _ _, howner⟩
            · exact Or.inr ⟨k', List.mem_cons_of_mem _ hk', ho'⟩
      · have hr := ih _ _ h o
        refine ⟨fun h1 => ?_, fun h2 => ?_⟩
        · rcases hr.1 h1 with h' | ⟨k', hk', ho'⟩
          · exact Or.inl h'
          · exact Or.inr ⟨k', List.mem_cons_of_mem _ hk', ho'⟩
        · rcases hr.2 h2 with h' | ⟨k', hk', ho'⟩
          · rcases mem_addSet _ _ _ h' with h'' | rfl
            · exact Or.inl h''
            · exact Or.inr ⟨k, List.mem_cons_self _ _, howner⟩
          · exact Or.inr ⟨k', List.mem_cons_of_mem _ hk', ho'⟩

/-- C10: a keyid listed in a role's delegation with no key descriptor in
the delegator is silently skipped: key lookup succeeds and returns exactly
the descriptor-backed keys, the signing status's signed and missing sets
contain only owners of descriptor-backed keys, and neither repository's
close produces a signature or placeholder under the ghost keyid. -/
theorem unknown_keyids_silently_skipped (c : Crypto) (ps : Playground.St)
    (ss : Signer.St) (now : Int) (rolename kid : String)
    (dp dsg : Signed) (rp rs : RoleInfo)
    (hdp : (if rolename == "root" || rolename == "timestamp" ||
              rolename == "snapshot" || rolename == "targets"
            then Playground.rootSigned ps
            else Playground.targetsSigned ps "targets") = .ok dp)
    (hrp : getDelegatedRole dp rolename = some rp)
    (hkidp : kid ∈ rp.keyids)
    (hmissp : getKey dp kid = none)
    (hcleanp : ∀ k ∈ rp.keyids.filterMap (getKey dp), k.keyid ≠ kid)
    (hds : (if rolename == "root" || rolename == "timestamp" ||
              rolename == "snapshot" || rolename == "targets"
            then Signer.rootSigned ss
            else Signer.targetsSigned ss "targets") = .ok dsg)
    (hrs : getDelegatedRole dsg rolename = some rs)
    (hkids : kid ∈ rs.keyids)
    (hmisss : getKey dsg kid = none)
    (hcleans : ∀ k ∈ rs.keyids.filterMap (getKey dsg), k.keyid ≠ kid) :
    Playground.getKeys ps rolename = .ok (rp.keyids.filterMap (getKey dp))
    ∧ Signer.getKeys ss rolename = .ok (rs.keyids.filterMap (getKey dsg))
    ∧ (∀ dmd st, Playground.getSigningStatus c ps now dmd rolename = .ok st →
        ∀ o, (o ∈ st.signed ∨ o ∈ st.missing) →
          ∃ k, k ∈ rp.keyids.filterMap (getKey dp) ∧ k.keyowner = some o)
    ∧ (∀ md s' md', Playground.close c ps now rolename md = .ok (s', md') →
        dictGet kid md'.signatures = none)
    ∧ (∀ md s' m, Signer.close c ss now rolename md = .ok s' →
        dictGet rolename s'.dir = some m → dictGet kid m.signatures = none) := by
  have hkeysP : Playground.getKeys ps rolename = .ok (rp.keyids.filterMap (getKey dp)) := by
    simp only [Playground.getKeys, hdp, hrp]
  have hkeysS : Signer.getKeys ss rolename = .ok (rs.keyids.filterMap (getKey dsg)) := by
    simp only [Signer.getKeys, hds, hrs]
  refine ⟨hkeysP, hkeysS, ?_, ?_, ?_⟩
  · intro dmd st h o ho
    unfold Playground.getSigningStatus at h
    split at h
    · cases h
    · rename_i md hmd
      split at h
      · cases h
      · split at h
        · cases h
        · rename_i keys₀ hkeys₀
          split at h
          · cases h
          · rename_i pr hpr
            split at h
            · cases h
            · cases h
              rw [hkeysP] at hkeys₀
              cases hkeys₀
              have hmem := Playground.collectSigners_mem c md _ _ _ hpr o
              rcases ho with h1 | h2
              · rcases hmem.1 h1 with h' | h'
                · cases h'
                · exact h'
              · rcases hmem.2 h2 with h' | h'
                · cases h'
                · exact h'
  · intro md s' md' hclose
    unfold Playground.close at hclose
    split at hclose
    · cases hclose
    · rename_i md₁ hprep
      unfold Playground.prepareClose at hprep
      split at hprep
      · cases hprep
      · split at hprep
        · cases hprep
        · rename_i keys₀ hkeys₀
          split at hprep
          · cases hprep
          · rename_i sigs hsigs
            cases hprep
            rw [hkeysP] at hkeys₀
            cases hkeys₀
            have hnone : dictGet kid sigs = none := by
              rcases Playground.buildSigs_entry c rolename _ _ [] sigs hsigs kid with
                ⟨heq, _⟩ | ⟨k', hk', hkid', _, _, _⟩
              · rw [heq]
                rfl
              · exact absurd hkid' (hcleanp k' hk')
            split at hclose
            · split at hclose
              · cases hclose
              · split at hclose
                · cases hclose
                · cases hclose
                  exact hnone
            · cases hclose
              exact hnone
  · intro md s' m hclose hm
    rcases Signer.close_ok_domain c ss now rolename md s' hclose with
      ⟨md'', keys₀, hdir, hkeys₀, hdom⟩
    rw [hdir] at hm
    cases hm
    rw [hkeysS] at hkeys₀
    cases hkeys₀
    have : ¬ (dictGet kid m.signatures).isSome = true := by
      rw [hdom kid]
      rintro ⟨k', hk', hkid'⟩
      exact absurd hkid' (hcleans k' hk')
    exact Option.not_isSome_iff_eq_none.mp this

/-- Witness for C10 at the ghost fixture: root lists `kidGhost` without a
descriptor, and nothing anywhere mentions it. -/
theorem unknown_keyids_silently_skipped_witness :
    Playground.getKeys Fixtures.pgGhostSt "root"
      = .ok (["kidA", "kidGhost"].filterMap (getKey Fixtures.rootGhostPayload))
    ∧ Signer.getKeys Fixtures.signerGhostSt "root"
      = .ok (["kidA", "kidGhost"].filterMap (getKey Fixtures.rootGhostPayload))
    ∧ (∀ dmd st,
        Playground.getSigningStatus Fixtures.cryptoOk Fixtures.pgGhostSt 0 dmd "root"
          = .ok st →
        ∀ o, (o ∈ st.signed ∨ o ∈ st.missing) →
          ∃ k, k ∈ ["kidA", "kidGhost"].filterMap (getKey Fixtures.rootGhostPayload)
            ∧ k.keyowner = some o)
    ∧ (∀ md s' md',
        Playground.close Fixtures.cryptoOk Fixtures.pgGhostSt 0 "root" md
          = .ok (s', md') →
        dictGet "kidGhost" md'.signatures = none)
    ∧ (∀ md s' m,
        Signer.close Fixtures.cryptoOk Fixtures.signerGhostSt 0 "root" md = .ok s' →
        dictGet "root" s'.dir = some m →
        dictGet "kidGhost" m.signatures = none) :=
  unknown_keyids_silently_skipped Fixtures.cryptoOk Fixtures.pgGhostSt
    Fixtures.signerGhostSt 0 "root" "kidGhost" Fixtures.rootGhostPayload
    Fixtures.rootGhostPayload ⟨["kidA", "kidGhost"], 1, none, none⟩
    ⟨["kidA", "kidGhost"], 1, none, none⟩ (by rfl) (by rfl) (by decide) (by rfl)
    (by decide) (by rfl) (by rfl) (by decide) (by rfl) (by decide)

end TufPlayground
